import Mathlib

/-!
Shallow embedding of the soliseum program (src/programs/soliseum/src/lib.rs).

Machine integers are modelled as Nat together with explicit bound checks at
exactly the places the source performs checked arithmetic; u64 checked_add
fails when the mathematical sum does not fit in 64 bits, and likewise for the
u128 intermediates of the payout computation.  Fallible instruction handlers
return Except SoliseumError; an error result corresponds to the transaction
aborting with no state mutation.
-/

namespace Soliseum

/-- Constant BPS_DENOMINATOR from the source. -/
def BPS_DENOMINATOR : Nat := 10000

/-- Constant MAX_ORACLES from the source. -/
def MAX_ORACLES : Nat := 3

/-- Constant ORACLE_THRESHOLD from the source (2-of-3 multisig). -/
def ORACLE_THRESHOLD : Nat := 2

/-- Bound of the u64 type: one more than its largest value. -/
def U64_BOUND : Nat := 2 ^ 64

/-- Bound of the u128 type: one more than its largest value. -/
def U128_BOUND : Nat := 2 ^ 128

/-- Checked addition of u64 values: fails on overflow. -/
def checked_add (a b : Nat) : Option Nat :=
  if a + b < U64_BOUND then some (a + b) else none

/-- Checked addition of u128 values: fails on overflow. -/
def checked_add128 (a b : Nat) : Option Nat :=
  if a + b < U128_BOUND then some (a + b) else none

/-- Checked multiplication of u128 values: fails on overflow. -/
def checked_mul128 (a b : Nat) : Option Nat :=
  if a * b < U128_BOUND then some (a * b) else none

/-- Model of a Solana public key: a sequence of exactly 32 bytes. -/
abbrev Pubkey := { l : List Nat // l.length = 32 }

/-- Model of Pubkey.default: the all-zero key. -/
def Pubkey.zero : Pubkey := ⟨List.replicate 32 0, by simp⟩

/-- Enum ArenaStatus from the source. -/
inductive ArenaStatus
  | Pending
  | Active
  | Settled
  | Cancelled
deriving DecidableEq

/-- Model of the fixed array of MAX_ORACLES committee public keys. -/
structure OracleSet where
  o0 : Pubkey
  o1 : Pubkey
  o2 : Pubkey
deriving DecidableEq

/-- Indexing into the oracle array; callers always index with a value
checked to be below MAX_ORACLES. -/
def OracleSet.get (os : OracleSet) : Nat → Pubkey
  | 0 => os.o0
  | 1 => os.o1
  | _ => os.o2

/-- Account struct Arena from the source. -/
structure Arena where
  creator : Pubkey
  oracles : OracleSet
  oracle_threshold : Nat
  total_pool : Nat
  agent_a_pool : Nat
  agent_b_pool : Nat
  status : ArenaStatus
  winner : Option Nat
  fee_bps : Nat
  settlement_nonce : Nat
deriving DecidableEq

/-- Account struct Stake from the source. -/
structure Stake where
  owner : Pubkey
  amount : Nat
  side : Nat
  claimed : Bool
deriving DecidableEq

/-- Struct OracleSignature from the source: an oracle index plus 64
signature bytes. -/
structure OracleSignature where
  oracle_index : Nat
  signature : List Nat
deriving DecidableEq

/-- Enum SoliseumError from the source. -/
inductive SoliseumError
  | UnauthorizedOracle
  | AlreadyClaimed
  | MathOverflow
  | InvalidArenaState
  | InsufficientSignatures
  | DuplicateOracle
  | InvalidOracleIndex
  | InvalidOracleConfig
  | InvalidSignature
deriving DecidableEq

/-- Little-endian byte encoding of a natural number at a given width,
modelling u64 to_le_bytes when the width is 8. -/
def natToLE : Nat → Nat → List Nat
  | 0, _ => []
  | w + 1, n => n % 256 :: natToLE w (n / 256)

/-- Decoding of a little-endian byte list, used to prove injectivity of
natToLE. -/
def fromLE : List Nat → Nat
  | [] => 0
  | b :: rest => b + 256 * fromLE rest

/-- Byte content of the literal tag in create_settlement_message. -/
def settleTagBytes : List Nat := "soliseum:settle:".data.map Char.toNat

/-- Byte content of the literal tag in create_reset_message. -/
def resetTagBytes : List Nat := "soliseum:reset:".data.map Char.toNat

/-- Byte content of the literal tag in create_oracle_update_message. -/
def updateTagBytes : List Nat := "soliseum:update_oracles:".data.map Char.toNat

/-- Function create_settlement_message from the source: tag, arena key
bytes, winner byte, nonce as 8 little-endian bytes. -/
def create_settlement_message (arena : Pubkey) (winner : Nat) (nonce : Nat) : List Nat :=
  settleTagBytes ++ arena.val ++ [winner] ++ natToLE 8 nonce

/-- Function create_reset_message from the source: tag, arena key bytes,
nonce as 8 little-endian bytes. -/
def create_reset_message (arena : Pubkey) (nonce : Nat) : List Nat :=
  resetTagBytes ++ arena.val ++ natToLE 8 nonce

/-- Function create_oracle_update_message from the source: tag, arena key
bytes, the three new oracle keys in order, nonce as 8 little-endian bytes. -/
def create_oracle_update_message (arena : Pubkey) (new_oracles : OracleSet) (nonce : Nat) : List Nat :=
  updateTagBytes ++ arena.val ++ new_oracles.o0.val ++ new_oracles.o1.val ++
    new_oracles.o2.val ++ natToLE 8 nonce

/-- Function verify_ed25519_signature from the source.  The source body is a
placeholder that ignores all three arguments and returns true; the embedding
reproduces that behaviour faithfully. -/
def verify_ed25519_signature (_pubkey : Pubkey) (_message : List Nat) (_signature : List Nat) : Bool :=
  true

/-- The signature-verification loop shared verbatim by settle_game,
reset_arena and update_oracles: for each signature in input order, fail
DuplicateOracle if its index was already seen, fail InvalidOracleIndex if
the index is not below MAX_ORACLES, record the index, then fail
InvalidSignature if verify_ed25519_signature rejects. -/
def verifyLoop (oracles : OracleSet) (msg : List Nat) :
    List OracleSignature → List Nat → Except SoliseumError Unit
  | [], _ => .ok ()
  | sig :: rest, used =>
    if sig.oracle_index ∈ used then .error .DuplicateOracle
    else if ¬ sig.oracle_index < MAX_ORACLES then .error .InvalidOracleIndex
    else if ¬ verify_ed25519_signature (oracles.get sig.oracle_index) msg sig.signature = true then
      .error .InvalidSignature
    else verifyLoop oracles msg rest (used ++ [sig.oracle_index])

/-- Modelled from the spec wording for comparison: the same per-signature
checks but ordered index-bound first, duplicate second, as section 4.2 of
the spec lists them. -/
def verifyLoopSpecOrder (oracles : OracleSet) (msg : List Nat) :
    List OracleSignature → List Nat → Except SoliseumError Unit
  | [], _ => .ok ()
  | sig :: rest, used =>
    if ¬ sig.oracle_index < MAX_ORACLES then .error .InvalidOracleIndex
    else if sig.oracle_index ∈ used then .error .DuplicateOracle
    else if ¬ verify_ed25519_signature (oracles.get sig.oracle_index) msg sig.signature = true then
      .error .InvalidSignature
    else verifyLoopSpecOrder oracles msg rest (used ++ [sig.oracle_index])

/-- Handler initialize_arena from the source: checks the fee bound, rejects
default or duplicate oracle keys, and creates the arena Active with zero
pools and nonce zero.  Vault creation is external custody and out of the
embedded state. -/
def initialize_arena (creator : Pubkey) (fee_bps : Nat) (oracle_pubkeys : OracleSet) :
    Except SoliseumError Arena :=
  if ¬ fee_bps ≤ BPS_DENOMINATOR then .error .MathOverflow
  else if oracle_pubkeys.o0 = Pubkey.zero ∨ oracle_pubkeys.o1 = Pubkey.zero ∨
      oracle_pubkeys.o2 = Pubkey.zero then .error .InvalidOracleConfig
  else if oracle_pubkeys.o0 = oracle_pubkeys.o1 ∨ oracle_pubkeys.o0 = oracle_pubkeys.o2 ∨
      oracle_pubkeys.o1 = oracle_pubkeys.o2 then .error .InvalidOracleConfig
  else .ok
    { creator := creator
      oracles := oracle_pubkeys
      oracle_threshold := ORACLE_THRESHOLD
      total_pool := 0
      agent_a_pool := 0
      agent_b_pool := 0
      status := .Active
      winner := none
      fee_bps := fee_bps
      settlement_nonce := 0 }

/-- Stake-record update of place_stake (source lines 126 to 137): a fresh
stake record (amount zero) is initialised with the callers key, amount and
side; an existing one must match the recorded side and accumulates by
checked addition. -/
def stake_after_place (stake : Stake) (user : Pubkey) (amount side : Nat) :
    Except SoliseumError Stake :=
  if stake.amount = 0 then
    .ok { owner := user, amount := amount, side := side, claimed := false }
  else if ¬ stake.side = side then .error .InvalidArenaState
  else
    match checked_add stake.amount amount with
    | none => .error .MathOverflow
    | some a => .ok { stake with amount := a }

/-- Handler place_stake from the source: requires side at most 1, Active
status and positive amount; updates the stake record via
stake_after_place; the pool totals then grow by checked addition (source
lines 139 to 145).  The lamport transfer into the vault is external
custody. -/
def place_stake (arena : Arena) (stake : Stake) (user : Pubkey) (amount side : Nat) :
    Except SoliseumError (Arena × Stake) :=
  if ¬ side ≤ 1 then .error .InvalidArenaState
  else if ¬ arena.status = .Active then .error .InvalidArenaState
  else if ¬ 0 < amount then .error .MathOverflow
  else
    match stake_after_place stake user amount side with
    | .error e => .error e
    | .ok stake2 =>
      match checked_add arena.total_pool amount with
      | none => .error .MathOverflow
      | some tp =>
        if side = 0 then
          match checked_add arena.agent_a_pool amount with
          | none => .error .MathOverflow
          | some ap => .ok ({ arena with total_pool := tp, agent_a_pool := ap }, stake2)
        else
          match checked_add arena.agent_b_pool amount with
          | none => .error .MathOverflow
          | some bp => .ok ({ arena with total_pool := tp, agent_b_pool := bp }, stake2)

/-- Handler settle_game from the source: requires winner at most 1, Active
status, at least oracle_threshold signatures, runs the verification loop
over the settlement message at the current nonce, then records the winner,
marks the arena Settled and increments the nonce by checked addition. -/
def settle_game (arena : Arena) (arenaKey : Pubkey) (winner : Nat)
    (oracle_signatures : List OracleSignature) : Except SoliseumError Arena :=
  if ¬ winner ≤ 1 then .error .InvalidArenaState
  else if ¬ arena.status = .Active then .error .InvalidArenaState
  else if ¬ arena.oracle_threshold ≤ oracle_signatures.length then .error .InsufficientSignatures
  else
    match verifyLoop arena.oracles
        (create_settlement_message arenaKey winner arena.settlement_nonce)
        oracle_signatures [] with
    | .error e => .error e
    | .ok _ =>
      match checked_add arena.settlement_nonce 1 with
      | none => .error .MathOverflow
      | some n =>
        .ok { arena with winner := some winner, status := .Settled, settlement_nonce := n }

/-- Authorisation step shared by reset_arena and update_oracles: the
creator passes directly; anyone else must supply at least oracle_threshold
signatures that pass the verification loop over the given message. -/
def creator_or_consensus (arena : Arena) (authority : Pubkey) (msg : List Nat)
    (oracle_signatures : Option (List OracleSignature)) : Except SoliseumError Unit :=
  if authority = arena.creator then .ok ()
  else
    match oracle_signatures with
    | none => .error .UnauthorizedOracle
    | some sigs =>
      if ¬ arena.oracle_threshold ≤ sigs.length then .error .InsufficientSignatures
      else verifyLoop arena.oracles msg sigs []

/-- Handler reset_arena from the source: requires Settled status and an
empty vault; authorisation via creator_or_consensus over the reset message
at the current nonce; pools and winner are cleared, status returns to
Active and the nonce is incremented by checked addition. -/
def reset_arena (arena : Arena) (arenaKey : Pubkey) (authority : Pubkey)
    (vault_lamports : Nat) (oracle_signatures : Option (List OracleSignature)) :
    Except SoliseumError Arena :=
  if ¬ arena.status = .Settled then .error .InvalidArenaState
  else if ¬ vault_lamports = 0 then .error .InvalidArenaState
  else
    match creator_or_consensus arena authority
        (create_reset_message arenaKey arena.settlement_nonce) oracle_signatures with
    | .error e => .error e
    | .ok _ =>
      match checked_add arena.settlement_nonce 1 with
      | none => .error .MathOverflow
      | some n =>
        .ok { arena with
              status := .Active
              winner := none
              total_pool := 0
              agent_a_pool := 0
              agent_b_pool := 0
              settlement_nonce := n }

/-- Handler update_oracles from the source: rejects default or duplicate
new keys; the creator may rotate directly, anyone else needs at least
oracle_threshold signatures of the current committee passing the loop over
the oracle-update message at the current nonce; the committee is replaced
and the nonce incremented by checked addition. -/
def update_oracles (arena : Arena) (arenaKey : Pubkey) (authority : Pubkey)
    (new_oracles : OracleSet) (oracle_signatures : Option (List OracleSignature)) :
    Except SoliseumError Arena :=
  if new_oracles.o0 = Pubkey.zero ∨ new_oracles.o1 = Pubkey.zero ∨
      new_oracles.o2 = Pubkey.zero then .error .InvalidOracleConfig
  else if new_oracles.o0 = new_oracles.o1 ∨ new_oracles.o0 = new_oracles.o2 ∨
      new_oracles.o1 = new_oracles.o2 then .error .InvalidOracleConfig
  else
    match creator_or_consensus arena authority
        (create_oracle_update_message arenaKey new_oracles arena.settlement_nonce)
        oracle_signatures with
    | .error e => .error e
    | .ok _ =>
      match checked_add arena.settlement_nonce 1 with
      | none => .error .MathOverflow
      | some n => .ok { arena with oracles := new_oracles, settlement_nonce := n }

/-- Handler claim_reward from the source: requires an unclaimed stake, a
Settled arena with a recorded winner matching the stake side, and a
positive winner pool; computes the net loser pool, the pro-rata reward and
the total payout with u128 checked arithmetic and truncating division,
narrows the payout back to u64, and flips the claimed flag before the
external transfer.  Divisions are by BPS_DENOMINATOR (a nonzero constant)
and by the winner pool (already required positive), matching checked_div in
the source.  Returns the updated stake and the payout handed to custody. -/
def claim_reward (arena : Arena) (stake : Stake) : Except SoliseumError (Stake × Nat) :=
  if stake.claimed then .error .AlreadyClaimed
  else if ¬ arena.status = .Settled then .error .InvalidArenaState
  else
    match arena.winner with
    | none => .error .InvalidArenaState
    | some winner =>
      if ¬ stake.side = winner then .error .InvalidArenaState
      else
        let total_winner_pool := if winner = 0 then arena.agent_a_pool else arena.agent_b_pool
        let total_loser_pool := if winner = 0 then arena.agent_b_pool else arena.agent_a_pool
        if ¬ 0 < total_winner_pool then .error .MathOverflow
        else
          match checked_mul128 total_loser_pool (BPS_DENOMINATOR - arena.fee_bps) with
          | none => .error .MathOverflow
          | some prod1 =>
            let net_loser_pool := prod1 / BPS_DENOMINATOR
            match checked_mul128 stake.amount net_loser_pool with
            | none => .error .MathOverflow
            | some prod2 =>
              let user_reward := prod2 / total_winner_pool
              match checked_add128 stake.amount user_reward with
              | none => .error .MathOverflow
              | some total_payout =>
                if ¬ total_payout < U64_BOUND then .error .MathOverflow
                else .ok ({ stake with claimed := true }, total_payout)

/-- The pure payout formula computed by claim_reward on the success path:
principal plus the pro-rata share of the fee-reduced loser pool, with
truncating integer division throughout. -/
def claim_payout (amount winner_pool loser_pool fee_bps : Nat) : Nat :=
  amount + amount * (loser_pool * (BPS_DENOMINATOR - fee_bps) / BPS_DENOMINATOR) / winner_pool

/-- Runner for place_stake that keeps the prior state on failure, matching
the all-or-nothing transaction semantics of a failed instruction. -/
def run_place (arena : Arena) (stake : Stake) (user : Pubkey) (amount side : Nat) :
    Arena × Stake :=
  match place_stake arena stake user amount side with
  | .ok p => p
  | .error _ => (arena, stake)

/-- Global state of one arena and its child accounts: the arena record, its
account address, the per-user stake PDAs (a fresh, never-initialised stake
PDA reads as all zeroes, matching init_if_needed), and the vault lamport
balance held by external custody. -/
structure World where
  arena : Arena
  arenaKey : Pubkey
  stakes : Pubkey → Stake
  vault_lamports : Nat

/-- One instruction of the program, with the per-instruction arguments;
the accounts each instruction touches are fixed by its Accounts struct in
the source. -/
inductive Op
  | placeStake (user : Pubkey) (amount side : Nat)
  | settleGame (winner : Nat) (sigs : List OracleSignature)
  | resetArena (authority : Pubkey) (sigs : Option (List OracleSignature))
  | updateOracles (authority : Pubkey) (new_oracles : OracleSet)
      (sigs : Option (List OracleSignature))
  | claimReward (user : Pubkey)

/-- Execution of one instruction against the world.  Each instruction can
only write the accounts listed in its Accounts struct: place_stake writes
the arena, the callers stake PDA and the vault; settle_game, reset_arena
and update_oracles write only the arena; claim_reward writes the callers
stake PDA and the vault, after the Anchor account constraints
(stake.owner = user, not stake.claimed) are checked. -/
def step (w : World) : Op → Except SoliseumError World
  | .placeStake user amount side =>
    match place_stake w.arena (w.stakes user) user amount side with
    | .error e => .error e
    | .ok p =>
      .ok { w with
            arena := p.1
            stakes := fun u => if u = user then p.2 else w.stakes u
            vault_lamports := w.vault_lamports + amount }
  | .settleGame winner sigs =>
    match settle_game w.arena w.arenaKey winner sigs with
    | .error e => .error e
    | .ok a2 => .ok { w with arena := a2 }
  | .resetArena authority sigs =>
    match reset_arena w.arena w.arenaKey authority w.vault_lamports sigs with
    | .error e => .error e
    | .ok a2 => .ok { w with arena := a2 }
  | .updateOracles authority news sigs =>
    match update_oracles w.arena w.arenaKey authority news sigs with
    | .error e => .error e
    | .ok a2 => .ok { w with arena := a2 }
  | .claimReward user =>
    if ¬ (w.stakes user).owner = user then .error .InvalidArenaState
    else if (w.stakes user).claimed then .error .AlreadyClaimed
    else
      match claim_reward w.arena (w.stakes user) with
      | .error e => .error e
      | .ok p =>
        .ok { w with
              stakes := fun u => if u = user then p.1 else w.stakes u
              vault_lamports := w.vault_lamports - p.2 }

/-- Execution of a sequence of instructions, failing on the first error. -/
def steps (w : World) : List Op → Except SoliseumError World
  | [] => .ok w
  | op :: rest =>
    match step w op with
    | .error e => .error e
    | .ok w2 => steps w2 rest

/-- Concrete 32-byte keys used in witness instances. -/
def pkOracle0 : Pubkey := ⟨List.replicate 32 1, by simp⟩

/-- Concrete oracle key number one. -/
def pkOracle1 : Pubkey := ⟨List.replicate 32 2, by simp⟩

/-- Concrete oracle key number two. -/
def pkOracle2 : Pubkey := ⟨List.replicate 32 3, by simp⟩

/-- Concrete creator key. -/
def pkCreator : Pubkey := ⟨List.replicate 32 4, by simp⟩

/-- Concrete staker key. -/
def pkUser : Pubkey := ⟨List.replicate 32 5, by simp⟩

/-- Concrete arena account address. -/
def pkArena : Pubkey := ⟨List.replicate 32 6, by simp⟩

/-- Concrete oracle committee. -/
def osetC : OracleSet := ⟨pkOracle0, pkOracle1, pkOracle2⟩

/-- Concrete 64-byte blob standing in for signature bytes that were never
produced by any oracle key. -/
def zeros64 : List Nat := List.replicate 64 0

/-- Concrete Active arena used in witness instances. -/
def arenaActiveC : Arena :=
  { creator := pkCreator
    oracles := osetC
    oracle_threshold := ORACLE_THRESHOLD
    total_pool := 0
    agent_a_pool := 0
    agent_b_pool := 0
    status := .Active
    winner := none
    fee_bps := 500
    settlement_nonce := 0 }

/-- Concrete Settled arena matching Scenario A of the spec: fee 500 bps,
side-0 pool 1000, side-1 pool 3000, winner side 0. -/
def arenaScenA : Arena :=
  { creator := pkCreator
    oracles := osetC
    oracle_threshold := ORACLE_THRESHOLD
    total_pool := 4000
    agent_a_pool := 1000
    agent_b_pool := 3000
    status := .Settled
    winner := some 0
    fee_bps := 500
    settlement_nonce := 1 }

/-- Concrete Scenario A stake: 200 on side 0, not yet claimed. -/
def stakeScenA : Stake :=
  { owner := pkUser, amount := 200, side := 0, claimed := false }

/-- Content of a stake PDA that has never been written: all zeroes. -/
def stakeZero : Stake :=
  { owner := Pubkey.zero, amount := 0, side := 0, claimed := false }

/-- Concrete stake of 100 on side 1, unclaimed. -/
def stakeSide1 : Stake :=
  { owner := pkUser, amount := 100, side := 1, claimed := false }

/-- Concrete stake of 100 on side 1 whose reward was already claimed. -/
def stakePrior : Stake :=
  { owner := pkUser, amount := 100, side := 1, claimed := true }

/-- Concrete Settled arena with winner side 1 and a drained vault. -/
def arenaSettledC : Arena :=
  { arenaActiveC with
    status := .Settled
    winner := some 1
    total_pool := 100
    agent_b_pool := 100
    settlement_nonce := 1 }

/-- Concrete Settled arena whose winning side 0 has an empty pool. -/
def arenaZeroWinC : Arena :=
  { arenaActiveC with
    status := .Settled
    winner := some 0
    total_pool := 300
    agent_b_pool := 300
    settlement_nonce := 1 }

/-- Concrete stake on side 0 facing the empty winner pool of
arenaZeroWinC. -/
def stakeSideZero : Stake :=
  { owner := pkUser, amount := 50, side := 0, claimed := false }

/-- Concrete world holding a fresh Active arena and no stakes. -/
def worldActive : World :=
  { arena := arenaActiveC
    arenaKey := pkArena
    stakes := fun _ => stakeZero
    vault_lamports := 0 }

/-- Concrete world after one successful placeStake step on worldActive. -/
def worldActive2 : World :=
  match step worldActive (.placeStake pkUser 5 0) with
  | .ok w => w
  | .error _ => worldActive

/-- Concrete world holding a Settled, drained arena and one prior-round
stake that was already claimed. -/
def worldSettled : World :=
  { arena := arenaSettledC
    arenaKey := pkArena
    stakes := fun u => if u = pkUser then stakePrior else stakeZero
    vault_lamports := 0 }

/-- Concrete world after the creator resets worldSettled. -/
def worldAfterReset : World :=
  match step worldSettled (.resetArena pkCreator none) with
  | .ok w => w
  | .error _ => worldSettled

/-- Concrete world after one successful settleGame step on worldActive. -/
def worldSettledStep : World :=
  match step worldActive (.settleGame 0 [⟨0, zeros64⟩, ⟨1, zeros64⟩]) with
  | .ok w => w
  | .error _ => worldActive

/-! ## Helper lemmas -/

/-- A successful u64 checked_add returns the mathematical sum. -/
theorem checked_add_eq {a b c : Nat} (h : checked_add a b = some c) : c = a + b := by
  unfold checked_add at h
  split at h
  · exact (Option.some.inj h).symm
  · exact Option.noConfusion h

/-- A successful place_stake adds the amount to the total pool and to
exactly one side pool, and leaves status and nonce untouched. -/
theorem place_stake_arena_eq {arena : Arena} {stake : Stake} {user : Pubkey}
    {amount side : Nat} {p : Arena × Stake}
    (h : place_stake arena stake user amount side = .ok p) :
    p.1.total_pool = arena.total_pool + amount ∧
    p.1.agent_a_pool + p.1.agent_b_pool = arena.agent_a_pool + arena.agent_b_pool + amount ∧
    p.1.settlement_nonce = arena.settlement_nonce ∧
    p.1.status = arena.status := by
  unfold place_stake at h
  split at h
  · exact Except.noConfusion h
  split at h
  · exact Except.noConfusion h
  split at h
  · exact Except.noConfusion h
  split at h
  · exact Except.noConfusion h
  split at h
  · exact Except.noConfusion h
  rename_i stake2 tp htp
  split at h
  · split at h
    · exact Except.noConfusion h
    rename_i ap hap
    injection h with h
    subst h
    obtain rfl := checked_add_eq htp
    obtain rfl := checked_add_eq hap
    refine ⟨rfl, ?_, rfl, rfl⟩
    simp only []
    omega
  · split at h
    · exact Except.noConfusion h
    rename_i bp hbp
    injection h with h
    subst h
    obtain rfl := checked_add_eq htp
    obtain rfl := checked_add_eq hbp
    refine ⟨rfl, ?_, rfl, rfl⟩
    simp only []
    omega

/-- A successful settle_game records the winner, marks the arena Settled
and increments the nonce by one; nothing else changes. -/
theorem settle_game_eq {arena : Arena} {arenaKey : Pubkey} {winner : Nat}
    {sigs : List OracleSignature} {a2 : Arena}
    (h : settle_game arena arenaKey winner sigs = .ok a2) :
    a2 = { arena with
           winner := some winner
           status := .Settled
           settlement_nonce := arena.settlement_nonce + 1 } := by
  unfold settle_game at h
  split at h
  · exact Except.noConfusion h
  split at h
  · exact Except.noConfusion h
  split at h
  · exact Except.noConfusion h
  split at h
  · exact Except.noConfusion h
  split at h
  · exact Except.noConfusion h
  rename_i n hn
  injection h with h
  subst h
  obtain rfl := checked_add_eq hn
  rfl

/-- A successful reset_arena clears pools and winner, returns the arena to
Active and increments the nonce by one; nothing else changes. -/
theorem reset_arena_eq {arena : Arena} {arenaKey authority : Pubkey}
    {vault_lamports : Nat} {sigs : Option (List OracleSignature)} {a2 : Arena}
    (h : reset_arena arena arenaKey authority vault_lamports sigs = .ok a2) :
    a2 = { arena with
           status := .Active
           winner := none
           total_pool := 0
           agent_a_pool := 0
           agent_b_pool := 0
           settlement_nonce := arena.settlement_nonce + 1 } := by
  unfold reset_arena at h
  split at h
  · exact Except.noConfusion h
  split at h
  · exact Except.noConfusion h
  split at h
  · exact Except.noConfusion h
  split at h
  · exact Except.noConfusion h
  rename_i n hn
  injection h with h
  subst h
  obtain rfl := checked_add_eq hn
  rfl

/-- A successful update_oracles replaces the committee and increments the
nonce by one; nothing else changes. -/
theorem update_oracles_eq {arena : Arena} {arenaKey authority : Pubkey}
    {news : OracleSet} {sigs : Option (List OracleSignature)} {a2 : Arena}
    (h : update_oracles arena arenaKey authority news sigs = .ok a2) :
    a2 = { arena with
           oracles := news
           settlement_nonce := arena.settlement_nonce + 1 } := by
  unfold update_oracles at h
  split at h
  · exact Except.noConfusion h
  split at h
  · exact Except.noConfusion h
  split at h
  · exact Except.noConfusion h
  split at h
  · exact Except.noConfusion h
  rename_i n hn
  injection h with h
  subst h
  obtain rfl := checked_add_eq hn
  rfl

/-- Unfolding of a successful placeStake step. -/
theorem step_placeStake_ok {w : World} {user : Pubkey} {amount side : Nat} {w2 : World}
    (h : step w (.placeStake user amount side) = .ok w2) :
    ∃ p, place_stake w.arena (w.stakes user) user amount side = .ok p ∧
      w2.arena = p.1 ∧
      w2.stakes = (fun u => if u = user then p.2 else w.stakes u) := by
  simp only [step] at h
  split at h
  · exact Except.noConfusion h
  rename_i p hp
  injection h with h
  subst h
  exact ⟨p, hp, rfl, rfl⟩

/-- Unfolding of a successful settleGame step. -/
theorem step_settleGame_ok {w : World} {winner : Nat} {sigs : List OracleSignature}
    {w2 : World} (h : step w (.settleGame winner sigs) = .ok w2) :
    settle_game w.arena w.arenaKey winner sigs = .ok w2.arena ∧
    w2.stakes = w.stakes := by
  simp only [step] at h
  split at h
  · exact Except.noConfusion h
  rename_i a2 ha
  injection h with h
  subst h
  exact ⟨ha, rfl⟩

/-- Unfolding of a successful resetArena step. -/
theorem step_resetArena_ok {w : World} {authority : Pubkey}
    {sigs : Option (List OracleSignature)} {w2 : World}
    (h : step w (.resetArena authority sigs) = .ok w2) :
    reset_arena w.arena w.arenaKey authority w.vault_lamports sigs = .ok w2.arena ∧
    w2.stakes = w.stakes ∧ w2.arenaKey = w.arenaKey := by
  simp only [step] at h
  split at h
  · exact Except.noConfusion h
  rename_i a2 ha
  injection h with h
  subst h
  exact ⟨ha, rfl, rfl⟩

/-- Unfolding of a successful updateOracles step. -/
theorem step_updateOracles_ok {w : World} {authority : Pubkey} {news : OracleSet}
    {sigs : Option (List OracleSignature)} {w2 : World}
    (h : step w (.updateOracles authority news sigs) = .ok w2) :
    update_oracles w.arena w.arenaKey authority news sigs = .ok w2.arena ∧
    w2.stakes = w.stakes := by
  simp only [step] at h
  split at h
  · exact Except.noConfusion h
  rename_i a2 ha
  injection h with h
  subst h
  exact ⟨ha, rfl⟩

/-- A successful claimReward step leaves the arena record untouched. -/
theorem step_claimReward_arena {w : World} {user : Pubkey} {w2 : World}
    (h : step w (.claimReward user) = .ok w2) : w2.arena = w.arena := by
  simp only [step] at h
  split at h
  · exact Except.noConfusion h
  split at h
  · exact Except.noConfusion h
  split at h
  · exact Except.noConfusion h
  rename_i p hp
  injection h with h
  subst h
  rfl

/-- Any successful step preserves the pool-sum equation. -/
theorem step_pool_sum {w : World} {op : Op} {w2 : World} (h : step w op = .ok w2)
    (hw : w.arena.total_pool = w.arena.agent_a_pool + w.arena.agent_b_pool) :
    w2.arena.total_pool = w2.arena.agent_a_pool + w2.arena.agent_b_pool := by
  cases op with
  | placeStake user amount side =>
    obtain ⟨p, hp, ha, _⟩ := step_placeStake_ok h
    obtain ⟨h1, h2, _, _⟩ := place_stake_arena_eq hp
    rw [ha]
    omega
  | settleGame winner sigs =>
    obtain ⟨ha, _⟩ := step_settleGame_ok h
    rw [settle_game_eq ha]
    exact hw
  | resetArena authority sigs =>
    obtain ⟨ha, _, _⟩ := step_resetArena_ok h
    rw [reset_arena_eq ha]
    rfl
  | updateOracles authority news sigs =>
    obtain ⟨ha, _⟩ := step_updateOracles_ok h
    rw [update_oracles_eq ha]
    exact hw
  | claimReward user =>
    rw [step_claimReward_arena h]
    exact hw

/-- Any successful step never decreases the settlement nonce. -/
theorem step_nonce_mono {w : World} {op : Op} {w2 : World} (h : step w op = .ok w2) :
    w.arena.settlement_nonce ≤ w2.arena.settlement_nonce := by
  cases op with
  | placeStake user amount side =>
    obtain ⟨p, hp, ha, _⟩ := step_placeStake_ok h
    obtain ⟨_, _, h3, _⟩ := place_stake_arena_eq hp
    rw [ha, h3]
  | settleGame winner sigs =>
    obtain ⟨ha, _⟩ := step_settleGame_ok h
    rw [settle_game_eq ha]
    exact Nat.le_succ _
  | resetArena authority sigs =>
    obtain ⟨ha, _, _⟩ := step_resetArena_ok h
    rw [reset_arena_eq ha]
    exact Nat.le_succ _
  | updateOracles authority news sigs =>
    obtain ⟨ha, _⟩ := step_updateOracles_ok h
    rw [update_oracles_eq ha]
    exact Nat.le_succ _
  | claimReward user =>
    rw [step_claimReward_arena h]

/-- The settlement nonce is monotone along any successful instruction
sequence. -/
theorem steps_nonce_mono {w : World} {ops : List Op} {w2 : World}
    (h : steps w ops = .ok w2) :
    w.arena.settlement_nonce ≤ w2.arena.settlement_nonce := by
  induction ops generalizing w with
  | nil =>
    unfold steps at h
    injection h with h
    subst h
    exact Nat.le_refl _
  | cons op rest ih =>
    unfold steps at h
    split at h
    · exact Except.noConfusion h
    rename_i w1 h1
    exact Nat.le_trans (step_nonce_mono h1) (ih h)

/-- With an Active arena, a positive amount and an existing stake of
positive amount, a placement on a different side fails with
InvalidArenaState. -/
theorem place_stake_mismatch (arena : Arena) (stake : Stake) (user : Pubkey)
    (amount side : Nat) (hamt : 0 < amount)
    (hpos : 0 < stake.amount) (hside : ¬ stake.side = side) :
    place_stake arena stake user amount side = .error .InvalidArenaState := by
  rcases Nat.lt_or_ge 1 side with hgt | hle
  · have hnot : ¬ side ≤ 1 := by omega
    simp [place_stake, hnot]
  · by_cases hstat : arena.status = ArenaStatus.Active
    · have h0 : ¬ stake.amount = 0 := by omega
      simp [place_stake, stake_after_place, hstat, hamt, h0, hside, hle]
    · simp [place_stake, hstat, hle]

/-- The two per-signature check orders agree whenever every already-seen
index is in range, which the loop maintains. -/
theorem verifyLoop_eq_specOrder (os : OracleSet) (msg : List Nat) :
    ∀ (sigs : List OracleSignature) (used : List Nat),
      (∀ i ∈ used, i < MAX_ORACLES) →
      verifyLoop os msg sigs used = verifyLoopSpecOrder os msg sigs used := by
  intro sigs
  induction sigs with
  | nil =>
    intro used _
    rfl
  | cons sig rest ih =>
    intro used hu
    unfold verifyLoop verifyLoopSpecOrder
    by_cases hmem : sig.oracle_index ∈ used
    · have hlt : sig.oracle_index < MAX_ORACLES := hu _ hmem
      simp [hmem, hlt]
    · by_cases hlt : sig.oracle_index < MAX_ORACLES
      · simp only [if_neg hmem, if_pos hlt]
        simp [hmem, hlt, verify_ed25519_signature]
        exact ih (used ++ [sig.oracle_index]) (by
          intro i hi
          rcases List.mem_append.mp hi with hcase | hcase
          · exact hu i hcase
          · rw [List.mem_singleton.mp hcase]
            exact hlt)
      · simp [hmem, hlt]

/-! ## Claim theorems -/

/-- Claim C7: the consensus verification used by settle_game and
reset_arena processes signatures in input order; the per-signature check
order stated by the spec (index bound before duplicate before signature
validity) is observationally identical to the loop as coded, and a list
whose out-of-range index repeats an earlier out-of-range index fails the
call with InvalidOracleIndex. -/
theorem verify_loop_check_order (os : OracleSet) (msg : List Nat) :
    (∀ sigs : List OracleSignature,
      verifyLoop os msg sigs [] = verifyLoopSpecOrder os msg sigs []) ∧
    (∀ s1 s2 : List Nat,
      verifyLoop os msg
        [{ oracle_index := 5, signature := s1 }, { oracle_index := 5, signature := s2 }] [] =
        .error .InvalidOracleIndex) :=
  ⟨fun sigs => verifyLoop_eq_specOrder os msg sigs [] (by intro i hi; cases hi),
   fun _ _ => rfl⟩

/-- Claim C1 evidence: the source never performs cryptographic signature
verification; verify_ed25519_signature is a placeholder returning true on
every input, so settle_game, reset_arena (non-creator) and update_oracles
(non-creator) succeed with completely arbitrary signature bytes as long as
the indices are distinct and in range. -/
theorem consensus_ignores_signature_bytes :
    (∀ (pk : Pubkey) (msg sigbytes : List Nat),
      verify_ed25519_signature pk msg sigbytes = true) ∧
    (∀ s1 s2 : List Nat,
      settle_game arenaActiveC pkArena 0
        [{ oracle_index := 0, signature := s1 }, { oracle_index := 1, signature := s2 }] =
      .ok { arenaActiveC with
            winner := some 0
            status := .Settled
            settlement_nonce := 1 }) ∧
    (∀ s1 s2 : List Nat,
      reset_arena arenaSettledC pkArena pkUser 0
        (some [{ oracle_index := 0, signature := s1 }, { oracle_index := 1, signature := s2 }]) =
      .ok { arenaSettledC with
            status := .Active
            winner := none
            total_pool := 0
            agent_a_pool := 0
            agent_b_pool := 0
            settlement_nonce := 2 }) ∧
    (∀ s1 s2 : List Nat,
      update_oracles arenaActiveC pkArena pkUser osetC
        (some [{ oracle_index := 0, signature := s1 }, { oracle_index := 1, signature := s2 }]) =
      .ok { arenaActiveC with
            oracles := osetC
            settlement_nonce := 1 }) :=
  ⟨fun _ _ _ => rfl, fun _ _ => rfl, fun _ _ => rfl, fun _ _ => rfl⟩

/-- Claim C2: Scenario A: with fee_bps 500, winner-side pool 1000,
loser-side pool 3000 and winner 0, a stake of 200 on side 0 yields the net
loser pool 2850, the user reward 570 and the total payout 770, and
claim_reward returns exactly that payout with the claimed flag set. -/
theorem scenario_a_payout :
    3000 * (BPS_DENOMINATOR - 500) / BPS_DENOMINATOR = 2850 ∧
    200 * 2850 / 1000 = 570 ∧
    claim_payout 200 1000 3000 500 = 770 ∧
    claim_reward arenaScenA stakeScenA = .ok ({ stakeScenA with claimed := true }, 770) :=
  ⟨by decide, by decide, by decide, rfl⟩

/-- Claim C6: on a settled arena whose winning-side pool is zero, a
winning-side claim fails with an error (the guard fires before any
division), never dividing by zero and never saturating. -/
theorem claim_reward_zero_winner_pool_errors (arena : Arena) (stake : Stake) (wn : Nat)
    (hclaimed : stake.claimed = false) (hstatus : arena.status = ArenaStatus.Settled)
    (hwin : arena.winner = some wn) (hside : stake.side = wn)
    (hpool : (if wn = 0 then arena.agent_a_pool else arena.agent_b_pool) = 0) :
    claim_reward arena stake = .error .MathOverflow := by
  simp [claim_reward, hclaimed, hstatus, hwin, hside, hpool]

/-- Witness for claim C6 at a concrete settled arena with an empty winning
pool. -/
theorem claim_reward_zero_winner_pool_errors_witness :
    stakeSideZero.claimed = false ∧
    claim_reward arenaZeroWinC stakeSideZero = .error .MathOverflow :=
  ⟨rfl, claim_reward_zero_winner_pool_errors arenaZeroWinC stakeSideZero 0 rfl rfl rfl rfl
    (by decide)⟩

/-- Claim C8: a second place_stake by the same participant on a different
side than the recorded one fails with InvalidArenaState, and the failed
call leaves the stake and all arena pool totals unchanged. -/
theorem second_stake_side_mismatch_fails (arena : Arena) (stake : Stake) (user : Pubkey)
    (amount side : Nat) (hamt : 0 < amount)
    (hpos : 0 < stake.amount) (hside : ¬ stake.side = side) :
    place_stake arena stake user amount side = .error .InvalidArenaState ∧
    run_place arena stake user amount side = (arena, stake) := by
  have hp := place_stake_mismatch arena stake user amount side hamt hpos hside
  refine ⟨hp, ?_⟩
  unfold run_place
  rw [hp]

/-- Witness for claim C8: a concrete second stake on the opposite side. -/
theorem second_stake_side_mismatch_fails_witness :
    0 < stakeSide1.amount ∧
    place_stake arenaActiveC stakeSide1 pkUser 5 0 = .error .InvalidArenaState ∧
    run_place arenaActiveC stakeSide1 pkUser 5 0 = (arenaActiveC, stakeSide1) := by
  have h := second_stake_side_mismatch_fails arenaActiveC stakeSide1 pkUser 5 0
    (by decide) (by decide) (by decide)
  exact ⟨by decide, h.1, h.2⟩

/-- Claim C4: total_pool equals agent_a_pool plus agent_b_pool right after
initialize_arena, and every successful operation (placeStake, settleGame,
resetArena, updateOracles, claimReward) preserves the equation. -/
theorem pool_sum_invariant :
    (∀ (creator : Pubkey) (fee : Nat) (os : OracleSet) (a : Arena),
      initialize_arena creator fee os = .ok a →
      a.total_pool = a.agent_a_pool + a.agent_b_pool) ∧
    (∀ (w : World) (op : Op) (w2 : World), step w op = .ok w2 →
      w.arena.total_pool = w.arena.agent_a_pool + w.arena.agent_b_pool →
      w2.arena.total_pool = w2.arena.agent_a_pool + w2.arena.agent_b_pool) := by
  constructor
  · intro creator fee os a h
    unfold initialize_arena at h
    split at h
    · exact Except.noConfusion h
    split at h
    · exact Except.noConfusion h
    split at h
    · exact Except.noConfusion h
    injection h with h
    subst h
    rfl
  · intro w op w2 h hw
    exact step_pool_sum h hw

/-- Witness for claim C4: one concrete placeStake step from a fresh arena
keeps the pool-sum equation. -/
theorem pool_sum_invariant_witness :
    step worldActive (Op.placeStake pkUser 5 0) = .ok worldActive2 ∧
    worldActive2.arena.total_pool =
      worldActive2.arena.agent_a_pool + worldActive2.arena.agent_b_pool := by
  have h : step worldActive (Op.placeStake pkUser 5 0) = .ok worldActive2 := rfl
  exact ⟨h, pool_sum_invariant.2 worldActive (Op.placeStake pkUser 5 0) worldActive2 h rfl⟩

/-- Claim C5: settle_game, reset_arena and update_oracles each increment
the settlement nonce by exactly one; place_stake and claim_reward leave it
unchanged; hence the nonce is monotonically non-decreasing along any
successful instruction sequence. -/
theorem nonce_increment_monotone :
    (∀ (w : World) (winner : Nat) (sigs : List OracleSignature) (w2 : World),
      step w (.settleGame winner sigs) = .ok w2 →
      w2.arena.settlement_nonce = w.arena.settlement_nonce + 1) ∧
    (∀ (w : World) (authority : Pubkey) (sigs : Option (List OracleSignature)) (w2 : World),
      step w (.resetArena authority sigs) = .ok w2 →
      w2.arena.settlement_nonce = w.arena.settlement_nonce + 1) ∧
    (∀ (w : World) (authority : Pubkey) (news : OracleSet)
        (sigs : Option (List OracleSignature)) (w2 : World),
      step w (.updateOracles authority news sigs) = .ok w2 →
      w2.arena.settlement_nonce = w.arena.settlement_nonce + 1) ∧
    (∀ (w : World) (user : Pubkey) (amount side : Nat) (w2 : World),
      step w (.placeStake user amount side) = .ok w2 →
      w2.arena.settlement_nonce = w.arena.settlement_nonce) ∧
    (∀ (w : World) (user : Pubkey) (w2 : World),
      step w (.claimReward user) = .ok w2 →
      w2.arena.settlement_nonce = w.arena.settlement_nonce) ∧
    (∀ (w : World) (ops : List Op) (w2 : World),
      steps w ops = .ok w2 →
      w.arena.settlement_nonce ≤ w2.arena.settlement_nonce) := by
  refine ⟨?_, ?_, ?_, ?_, ?_, ?_⟩
  · intro w winner sigs w2 h
    obtain ⟨ha, _⟩ := step_settleGame_ok h
    rw [settle_game_eq ha]
  · intro w authority sigs w2 h
    obtain ⟨ha, _, _⟩ := step_resetArena_ok h
    rw [reset_arena_eq ha]
  · intro w authority news sigs w2 h
    obtain ⟨ha, _⟩ := step_updateOracles_ok h
    rw [update_oracles_eq ha]
  · intro w user amount side w2 h
    obtain ⟨p, hp, ha, _⟩ := step_placeStake_ok h
    obtain ⟨_, _, h3, _⟩ := place_stake_arena_eq hp
    rw [ha, h3]
  · intro w user w2 h
    rw [step_claimReward_arena h]
  · intro w ops w2 h
    exact steps_nonce_mono h

/-- Witness for claim C5: one concrete settleGame step bumps the nonce
from 0 to 1 and the sequence is monotone. -/
theorem nonce_increment_monotone_witness :
    step worldActive (Op.settleGame 0 [⟨0, zeros64⟩, ⟨1, zeros64⟩]) = .ok worldSettledStep ∧
    worldSettledStep.arena.settlement_nonce = worldActive.arena.settlement_nonce + 1 ∧
    worldActive.arena.settlement_nonce ≤ worldSettledStep.arena.settlement_nonce := by
  have h : step worldActive (Op.settleGame 0 [⟨0, zeros64⟩, ⟨1, zeros64⟩]) =
      .ok worldSettledStep := rfl
  have hsteps : steps worldActive [Op.settleGame 0 [⟨0, zeros64⟩, ⟨1, zeros64⟩]] =
      .ok worldSettledStep := rfl
  exact ⟨h, nonce_increment_monotone.1 worldActive 0 _ worldSettledStep h,
    nonce_increment_monotone.2.2.2.2.2 worldActive _ worldSettledStep hsteps⟩

/-- Claim C10: a successful reset_arena step writes only the Arena record:
the stake map is unchanged, a claimed flag set before the reset is still
set afterwards, and a participant whose surviving stake has positive
amount stays bound to the old side: a later place_stake on a different
side fails with InvalidArenaState. -/
theorem reset_step_frames_stakes (w : World) (authority : Pubkey)
    (sigs : Option (List OracleSignature)) (w2 : World)
    (h : step w (.resetArena authority sigs) = .ok w2) :
    w2.stakes = w.stakes ∧
    (∀ u : Pubkey, (w.stakes u).claimed = true → (w2.stakes u).claimed = true) ∧
    (∀ (u : Pubkey) (amount side : Nat), 0 < amount → 0 < (w2.stakes u).amount →
      ¬ (w2.stakes u).side = side →
      step w2 (.placeStake u amount side) = .error .InvalidArenaState) := by
  obtain ⟨ha, hs, _⟩ := step_resetArena_ok h
  refine ⟨hs, ?_, ?_⟩
  · intro u hc
    rw [hs]
    exact hc
  · intro u amount side hamt hpos hside
    have hp := place_stake_mismatch w2.arena (w2.stakes u) u amount side hamt hpos hside
    simp only [step, hp]

/-- Witness for claim C10: the creator resets a settled arena; the old
claimed stake survives untouched and still blocks a side switch. -/
theorem reset_step_frames_stakes_witness :
    step worldSettled (.resetArena pkCreator none) = .ok worldAfterReset ∧
    worldAfterReset.stakes = worldSettled.stakes ∧
    (worldAfterReset.stakes pkUser).claimed = true ∧
    step worldAfterReset (.placeStake pkUser 5 0) = .error .InvalidArenaState := by
  have h : step worldSettled (.resetArena pkCreator none) = .ok worldAfterReset := rfl
  obtain ⟨h1, h2, h3⟩ := reset_step_frames_stakes worldSettled pkCreator none worldAfterReset h
  exact ⟨h, h1, h2 pkUser (by decide), h3 pkUser 5 0 (by decide) (by decide) (by decide)⟩

/-- Summing the truncated per-stake rewards is bounded by truncating the
summed numerators once. -/
theorem sum_map_div_le (N W : Nat) (l : List Nat) :
    (l.map (fun s => s * N / W)).sum ≤ (l.map (fun s => s * N)).sum / W := by
  induction l with
  | nil => simp
  | cons a t ih =>
    simp only [List.map_cons, List.sum_cons]
    calc a * N / W + (t.map (fun s => s * N / W)).sum
        ≤ a * N / W + (t.map (fun s => s * N)).sum / W := Nat.add_le_add_left ih _
      _ ≤ (a * N + (t.map (fun s => s * N)).sum) / W := Nat.add_div_le_add_div _ _ _

/-- Distributing a common multiplier out of a summed map. -/
theorem sum_map_mul (N : Nat) (l : List Nat) :
    (l.map (fun s => s * N)).sum = l.sum * N := by
  induction l with
  | nil => simp
  | cons a t ih => simp [ih, Nat.add_mul]

/-- A summed claim_payout splits into returned principal plus summed
rewards. -/
theorem sum_map_payout (W L f : Nat) (l : List Nat) :
    (l.map (fun s => claim_payout s W L f)).sum =
      l.sum + (l.map (fun s =>
        s * (L * (BPS_DENOMINATOR - f) / BPS_DENOMINATOR) / W)).sum := by
  induction l with
  | nil => simp
  | cons a t ih =>
    simp only [List.map_cons, List.sum_cons, claim_payout] at ih ⊢
    omega

/-- Claim C3: conservation: for any positive winner pool W, loser pool L
and fee f, and any winning stake amounts summing to exactly W, the summed
payouts computed by the claim_reward formula never exceed the winner pool
plus the fee-reduced loser pool; truncation only ever under-pays. -/
theorem payout_conservation (W L f : Nat) (ss : List Nat) (hW : 0 < W)
    (hsum : ss.sum = W) :
    (ss.map (fun s => claim_payout s W L f)).sum ≤
      W + L * (BPS_DENOMINATOR - f) / BPS_DENOMINATOR := by
  rw [sum_map_payout, hsum]
  have h1 := sum_map_div_le (L * (BPS_DENOMINATOR - f) / BPS_DENOMINATOR) W ss
  rw [sum_map_mul, hsum, Nat.mul_div_cancel_left _ hW] at h1
  omega

/-- Witness for claim C3: two winning stakes of 200 and 800 against loser
pool 3000 at fee 500 bps receive 770 plus 3080, within 1000 plus 2850. -/
theorem payout_conservation_witness :
    (0:Nat) < 1000 ∧ ([200, 800] : List Nat).sum = 1000 ∧
    (([200, 800] : List Nat).map (fun s => claim_payout s 1000 3000 500)).sum ≤
      1000 + 3000 * (BPS_DENOMINATOR - 500) / BPS_DENOMINATOR :=
  ⟨by decide, by decide, payout_conservation 1000 3000 500 [200, 800] (by decide) (by decide)⟩

/-- Length of the little-endian encoding equals the requested width. -/
theorem natToLE_len (w n : Nat) : (natToLE w n).length = w := by
  induction w generalizing n with
  | zero => rfl
  | succ k ih => simp [natToLE, ih]

/-- Decoding inverts the little-endian encoding modulo the width. -/
theorem fromLE_natToLE (w : Nat) : ∀ n, fromLE (natToLE w n) = n % 256 ^ w := by
  induction w with
  | zero =>
    intro n
    simp [natToLE, fromLE, Nat.mod_one]
  | succ k ih =>
    intro n
    have hpow : (256:Nat) ^ (k + 1) = 256 * 256 ^ k := by ring
    simp only [natToLE, fromLE, ih]
    rw [hpow, Nat.mod_mul]

/-- The little-endian encoding is injective below its range bound. -/
theorem natToLE_inj {w n m : Nat} (hn : n < 256 ^ w) (hm : m < 256 ^ w)
    (h : natToLE w n = natToLE w m) : n = m := by
  have hmod : n % 256 ^ w = m % 256 ^ w := by
    rw [← fromLE_natToLE, ← fromLE_natToLE, h]
  rwa [Nat.mod_eq_of_lt hn, Nat.mod_eq_of_lt hm] at hmod

/-- The u64 bound rewritten as the range of 8 little-endian bytes. -/
theorem u64_bound_as_pow : U64_BOUND = 256 ^ 8 := by decide

/-- Length of the settle tag bytes. -/
theorem settleTag_len : settleTagBytes.length = 16 := rfl

/-- Length of the reset tag bytes. -/
theorem resetTag_len : resetTagBytes.length = 15 := rfl

/-- Length of the oracle-update tag bytes. -/
theorem updateTag_len : updateTagBytes.length = 24 := rfl

/-- Every settlement message has 57 bytes. -/
theorem settle_msg_len (a : Pubkey) (w n : Nat) :
    (create_settlement_message a w n).length = 57 := by
  simp [create_settlement_message, natToLE_len, a.2, settleTag_len]

/-- Every reset message has 55 bytes. -/
theorem reset_msg_len (a : Pubkey) (n : Nat) :
    (create_reset_message a n).length = 55 := by
  simp [create_reset_message, natToLE_len, a.2, resetTag_len]

/-- Every oracle-update message has 160 bytes. -/
theorem update_msg_len (a : Pubkey) (os : OracleSet) (n : Nat) :
    (create_oracle_update_message a os n).length = 160 := by
  simp [create_oracle_update_message, natToLE_len, a.2, os.o0.2, os.o1.2, os.o2.2,
    updateTag_len]

/-- Injectivity of the settlement message builder for u64 nonces. -/
theorem settle_msg_inj (a a2 : Pubkey) (w w2 n n2 : Nat)
    (hn : n < U64_BOUND) (hn2 : n2 < U64_BOUND)
    (h : create_settlement_message a w n = create_settlement_message a2 w2 n2) :
    a = a2 ∧ w = w2 ∧ n = n2 := by
  unfold create_settlement_message at h
  simp only [List.append_assoc] at h
  have h1 := List.append_cancel_left h
  obtain ⟨hA, hrest⟩ := List.append_inj h1 (a.2.trans a2.2.symm)
  simp only [List.singleton_append] at hrest
  injection hrest with hw hle
  refine ⟨Subtype.ext hA, hw, ?_⟩
  rw [u64_bound_as_pow] at hn hn2
  exact natToLE_inj hn hn2 hle

/-- Injectivity of the reset message builder for u64 nonces. -/
theorem reset_msg_inj (a a2 : Pubkey) (n n2 : Nat)
    (hn : n < U64_BOUND) (hn2 : n2 < U64_BOUND)
    (h : create_reset_message a n = create_reset_message a2 n2) :
    a = a2 ∧ n = n2 := by
  unfold create_reset_message at h
  simp only [List.append_assoc] at h
  have h1 := List.append_cancel_left h
  obtain ⟨hA, hle⟩ := List.append_inj h1 (a.2.trans a2.2.symm)
  refine ⟨Subtype.ext hA, ?_⟩
  rw [u64_bound_as_pow] at hn hn2
  exact natToLE_inj hn hn2 hle

/-- Injectivity of the oracle-update message builder for u64 nonces. -/
theorem update_msg_inj (a a2 : Pubkey) (os os2 : OracleSet) (n n2 : Nat)
    (hn : n < U64_BOUND) (hn2 : n2 < U64_BOUND)
    (h : create_oracle_update_message a os n = create_oracle_update_message a2 os2 n2) :
    a = a2 ∧ os = os2 ∧ n = n2 := by
  unfold create_oracle_update_message at h
  simp only [List.append_assoc] at h
  have h1 := List.append_cancel_left h
  obtain ⟨hA, h2⟩ := List.append_inj h1 (a.2.trans a2.2.symm)
  obtain ⟨h00, h3⟩ := List.append_inj h2 (os.o0.2.trans os2.o0.2.symm)
  obtain ⟨h01, h4⟩ := List.append_inj h3 (os.o1.2.trans os2.o1.2.symm)
  obtain ⟨h02, hle⟩ := List.append_inj h4 (os.o2.2.trans os2.o2.2.symm)
  rw [u64_bound_as_pow] at hn hn2
  refine ⟨Subtype.ext hA, ?_, natToLE_inj hn hn2 hle⟩
  obtain ⟨x0, x1, x2⟩ := os
  obtain ⟨y0, y1, y2⟩ := os2
  simp only [OracleSet.mk.injEq]
  exact ⟨Subtype.ext h00, Subtype.ext h01, Subtype.ext h02⟩

/-- Claim C9: the three message builders are domain-separated (no output
of one ever equals an output of another, their lengths already differ) and
each is injective in all of its arguments for u64 nonces. -/
theorem message_builder_separation :
    (∀ (a : Pubkey) (w n : Nat) (a2 : Pubkey) (n2 : Nat),
      create_settlement_message a w n ≠ create_reset_message a2 n2) ∧
    (∀ (a : Pubkey) (w n : Nat) (a2 : Pubkey) (os : OracleSet) (n2 : Nat),
      create_settlement_message a w n ≠ create_oracle_update_message a2 os n2) ∧
    (∀ (a : Pubkey) (n : Nat) (a2 : Pubkey) (os : OracleSet) (n2 : Nat),
      create_reset_message a n ≠ create_oracle_update_message a2 os n2) ∧
    (∀ (a a2 : Pubkey) (w w2 n n2 : Nat), n < U64_BOUND → n2 < U64_BOUND →
      create_settlement_message a w n = create_settlement_message a2 w2 n2 →
      a = a2 ∧ w = w2 ∧ n = n2) ∧
    (∀ (a a2 : Pubkey) (n n2 : Nat), n < U64_BOUND → n2 < U64_BOUND →
      create_reset_message a n = create_reset_message a2 n2 →
      a = a2 ∧ n = n2) ∧
    (∀ (a a2 : Pubkey) (os os2 : OracleSet) (n n2 : Nat), n < U64_BOUND → n2 < U64_BOUND →
      create_oracle_update_message a os n = create_oracle_update_message a2 os2 n2 →
      a = a2 ∧ os = os2 ∧ n = n2) := by
  refine ⟨?_, ?_, ?_, settle_msg_inj, reset_msg_inj, update_msg_inj⟩
  · intro a w n a2 n2 h
    have hl := congrArg List.length h
    rw [settle_msg_len, reset_msg_len] at hl
    exact absurd hl (by decide)
  · intro a w n a2 os n2 h
    have hl := congrArg List.length h
    rw [settle_msg_len, update_msg_len] at hl
    exact absurd hl (by decide)
  · intro a n a2 os n2 h
    have hl := congrArg List.length h
    rw [reset_msg_len, update_msg_len] at hl
    exact absurd hl (by decide)

/-- Witness for claim C9 at concrete arguments with a u64 nonce. -/
theorem message_builder_separation_witness :
    (5:Nat) < U64_BOUND ∧ (pkArena = pkArena ∧ (0:Nat) = 0 ∧ (5:Nat) = 5) :=
  ⟨by decide,
   message_builder_separation.2.2.2.1 pkArena pkArena 0 0 5 5 (by decide) (by decide) rfl⟩

end Soliseum
